import Mathlib

/-!
Verification of the `now dev` development server (DevServer) against its
natural-language specification.  The definitions below are a shallow
embedding of the TypeScript sources: the complete dev-server variant
(`DevServer.serveProjectAsNowV2`, `writeResponseHeaders`, `resolveDest`,
`generateRequestId`, `proxyPass`, ...) and the newer variant
(`setResponseHeaders`, `stop`, `validateEnvConfig`, `applyBuildEnv`,
`restoreOriginalEnv`, the `stopping` short-circuit in `devServerHandler`).
HTTP plumbing (Node's `res.setHeader` / `res.getHeader`, which are
case-insensitive in the header name) is modelled by explicit association
lists; external collaborators that are not part of the repository
(the builder execution, the MIME table, the ignore list) are parameters.
-/

namespace DevServer

/-- Lower-case a string; used to model Node's case-insensitive treatment of
HTTP header names in `res.setHeader` / `res.getHeader`. -/
def lowerStr (s : String) : String := String.mk (s.data.map Char.toLower)

/-- Split a character list at every occurrence of a separator character;
used to model JS `String.split` / path component handling. -/
def splitCharAux (sep : Char) : List Char → List Char → List (List Char)
  | [], acc => [acc.reverse]
  | c :: rest, acc =>
    if c = sep then acc.reverse :: splitCharAux sep rest []
    else splitCharAux sep rest (c :: acc)

/-- Components of a string around a separator character. -/
def splitChar (sep : Char) (s : String) : List String :=
  (splitCharAux sep s.data []).map String.mk

/-- Response (and request) headers: an association list of name/value pairs. -/
abbrev Headers := List (String × String)

/-- Model of Node's `res.setHeader name value`: replaces an existing header
whose name matches case-insensitively, otherwise appends. -/
def setHeader : Headers → String → String → Headers
  | [], n, v => [(n, v)]
  | (k, w) :: rest, n, v =>
    if lowerStr k = lowerStr n then (n, v) :: rest
    else (k, w) :: setHeader rest n v

/-- Model of Node's `res.getHeader name`: case-insensitive lookup. -/
def getHeader : Headers → String → Option String
  | [], _ => none
  | (k, w) :: rest, n => if lowerStr k = lowerStr n then some w else getHeader rest n

/-- Apply `res.setHeader` for every entry of a list, in order. -/
def setAllHeaders (hs : Headers) (entries : Headers) : Headers :=
  entries.foldl (fun acc p => setHeader acc p.1 p.2) hs

/-- Body a response was ended with: `res.end()`, `res.end(string)` or
`res.end(buffer)` (a buffer is a byte list). -/
inductive Body
  | empty
  | text (s : String)
  | bytes (bs : List Nat)
deriving DecidableEq

/-- State of an `http.ServerResponse` when the handler ends it: status code
(Node's default is 200), the headers set on it, and the body. -/
structure Response where
  statusCode : Nat
  headers : Headers
  body : Body
deriving DecidableEq

/-- Externally visible actions the request handler can take besides ending
the response itself: proxy-passing, delegating to serve-handler, executing
a build, destroying a Lambda, closing the listening server. -/
inductive Action
  | proxyPass (dest : String)
  | serveStatic (dir : String) (url : String)
  | executeBuild (entrypoint : String)
  | destroyLambda (key : String)
  | closeServer
deriving DecidableEq

/-! Asset store and `resolveDest` (identical in both dev-server variants). -/

/-- Invocation outcome body declared by a Lambda: a string or a buffer. -/
inductive InvokeBody
  | str (s : String)
  | buf (bs : List Nat)
deriving DecidableEq

/-- Result of a successful Lambda invocation
(`{ statusCode, headers, encoding, body }`). -/
structure InvokeResult where
  statusCode : Nat
  headers : Headers
  encoding : Option String
  body : Option InvokeBody
deriving DecidableEq

/-- Behaviour of an invokable Lambda handle: awaiting `asset.fn(payload)`
either throws (error message) or produces an `InvokeResult`. -/
abbrev LambdaFn := Except String InvokeResult

instance exceptDecEq {ε α : Type} [DecidableEq ε] [DecidableEq α] :
    DecidableEq (Except ε α)
  | Except.ok a, Except.ok b =>
    if h : a = b then Decidable.isTrue (by rw [h])
    else Decidable.isFalse (by intro hh; cases hh; exact h rfl)
  | Except.ok _, Except.error _ => Decidable.isFalse (by intro hh; cases hh)
  | Except.error _, Except.ok _ => Decidable.isFalse (by intro hh; cases hh)
  | Except.error e, Except.error f =>
    if h : e = f then Decidable.isTrue (by rw [h])
    else Decidable.isFalse (by intro hh; cases hh; exact h rfl)

/-- BuilderOutput: the tagged artifact union the server switches on via
`asset.type` (`FileFsRef`, `FileBlob`, `Lambda`, or anything else).  Each
artifact optionally records `buildEntry.fsPath`, the entrypoint that built
it.  A `Lambda` artifact's `fn` handle is optional in the source. -/
inductive BuilderOutput
  | fileFsRef (fsPath : String) (buildEntry : Option String)
  | fileBlob (data : String) (buildEntry : Option String)
  | lambda (fn : Option LambdaFn) (buildEntry : Option String)
  | other (typeName : String)
deriving DecidableEq

/-- Asset store: `this.assets`, a JS object mapping logical path to artifact,
modelled as an association list (first binding wins on lookup). -/
abbrev Assets := List (String × BuilderOutput)

/-- Lookup in the asset store (`assets[assetKey]`). -/
def lookupAsset : Assets → String → Option BuilderOutput
  | [], _ => none
  | (k, a) :: rest, key => if k = key then some a else lookupAsset rest key

/-- Model of `dest.replace(/^\//, '')`: remove one leading slash, if any. -/
def stripOneLeadingSlash (s : String) : String :=
  match s.data with
  | '/' :: rest => String.mk rest
  | _ => s

/-- Model of `assetKey.replace(/\/$/, '')`: remove one trailing slash, if any. -/
def stripTrailingSlash (s : String) : String :=
  match s.data.reverse with
  | '/' :: rest => String.mk rest.reverse
  | _ => s

/-- JS regex `\w`: ASCII letters, digits and underscore. -/
def isWordChar (c : Char) : Bool :=
  c.isAlphanum || c == '_'

/-- Match of `(\.\w+)?$` against an entire character list: empty, or a dot
followed by at least one word character. -/
def matchesExt : List Char → Bool
  | [] => true
  | '.' :: c :: cs => isWordChar c && cs.all isWordChar
  | _ => false

/-- Match of `index(\.\w+)?$` against an entire character list. -/
def matchesIndexExt : List Char → Bool
  | 'i' :: 'n' :: 'd' :: 'e' :: 'x' :: rest => matchesExt rest
  | _ => false

/-- Match of `\/?index(\.\w+)?$` against an entire character list: the
leading slash is optional in the source regex. -/
def matchesIndexSuffix : List Char → Bool
  | '/' :: rest => matchesIndexExt rest
  | l => matchesIndexExt l

/-- Leftmost-match replacement by the empty string for the end-anchored
regex: scan positions left to right and cut the first suffix that matches
`\/?index(\.\w+)?$` (a match of an end-anchored pattern starting at
position `i` spans the whole suffix from `i`). -/
def stripIndexChars : List Char → List Char
  | [] => []
  | c :: cs =>
    if matchesIndexSuffix (c :: cs) then []
    else c :: stripIndexChars cs

/-- Model of `name.replace(/\/?index(\.\w+)?$/, '')` from `resolveDest`. -/
def withoutIndex (name : String) : String :=
  String.mk (stripIndexChars name.data)

/-- Shallow embedding of `resolveDest(assets, dest)` (identical in both
dev-server variants): direct lookup of `dest` minus one leading slash,
falling back to the first stored key whose `\/?index(\.\w+)?` suffix
stripped equals the lookup key minus one trailing slash. -/
def resolveDest (assets : Assets) (dest : String) :
    Option (String × BuilderOutput) :=
  let assetKey := stripOneLeadingSlash dest
  match lookupAsset assets assetKey with
  | some a => some (assetKey, a)
  | none =>
    match assets.find? (fun p => withoutIndex p.1 = stripTrailingSlash assetKey) with
    | some (k, a) => some (k, a)
    | none => none

/-- Value of one base64 alphabet character; `=` padding and any character
outside the alphabet contribute nothing (Node's decoder is lenient). -/
def b64Val (c : Char) : Option Nat :=
  if 'A' ≤ c ∧ c ≤ 'Z' then some (c.toNat - 65)
  else if 'a' ≤ c ∧ c ≤ 'z' then some (c.toNat - 97 + 26)
  else if '0' ≤ c ∧ c ≤ '9' then some (c.toNat - 48 + 52)
  else if c = '+' then some 62
  else if c = '/' then some 63
  else none

/-- Reassemble bytes from a list of 6-bit values, four values giving three
bytes, with the standard handling of a 2- or 3-value tail. -/
def b64Chunks : List Nat → List Nat
  | a :: b :: c :: d :: rest =>
    (a * 4 + b / 16) :: (b % 16 * 16 + c / 4) :: (c % 4 * 64 + d) :: b64Chunks rest
  | [a, b] => [a * 4 + b / 16]
  | [a, b, c] => [a * 4 + b / 16, b % 16 * 16 + c / 4]
  | _ => []

/-- Model of `Buffer.from(s, 'base64')`. -/
def b64Decode (s : String) : List Nat :=
  b64Chunks (s.data.filterMap b64Val)

/-! Request serving: the complete dev-server variant. -/

/-- Inbound HTTP request: method, URL and (already lower-cased, as Node
delivers them) request headers. -/
structure Request where
  method : String
  url : String
  headers : Headers
deriving DecidableEq

/-- Shallow embedding of `DevServer.shouldRebuild`: the request carries
cache-bypass semantics. -/
def shouldRebuild (req : Request) : Bool :=
  getHeader req.headers "pragma" == some "no-cache" ||
    getHeader req.headers "cache-control" == some "no-cache"

/-- Routing decision the handler receives from `devRouter`, after the
destructuring defaults `status = 200`, `headers = {}` are applied.
The `uri_args` only influence the path inside the Lambda invocation
payload, which this model folds into the abstract invocation outcome. -/
structure RouteResult where
  dest : String
  status : Nat
  headers : Headers
deriving DecidableEq

/-- Occurrence of the `://` scheme separator anywhere in a character list. -/
def hasSchemeSep : List Char → Bool
  | ':' :: '/' :: '/' :: _ => true
  | _ :: rest => hasSchemeSep rest
  | [] => false

/-- Modelled from the spec: the repository's `is-url` module is not under
`src/`; the spec proxies a destination exactly when it is "an absolute URL
(scheme-qualified)", modelled as containing the `://` scheme separator. -/
def isURL (s : String) : Bool :=
  hasSchemeSep s.data

/-- Shallow embedding of `writeResponseHeaders` (called
`setResponseHeaders` in the newer variant): spread the given headers, then
the three synthetic Now headers, into one object and `res.setHeader` each
entry.  Spreading then setting in order yields the same final header map as
setting the given entries first and the three Now headers afterwards,
which is how it is written here. -/
def writeResponseHeaders (hs : Headers) (nowRequestId : String)
    (headers : Headers) : Headers :=
  setHeader
    (setHeader
      (setHeader (setAllHeaders hs headers) "x-now-trace" "dev1")
      "x-now-id" nowRequestId)
    "x-now-cache" "MISS"

/-- Shallow embedding of `DevServer.sendError`: status code, the Now
headers on top of whatever headers the response already carries, and the
plaintext body `<status>: <message>\nCode: <code>\n`. -/
def sendError (hs : Headers) (nowRequestId code message : String)
    (statusCode : Nat) : Response :=
  ⟨statusCode,
   writeResponseHeaders hs nowRequestId [],
   Body.text (toString statusCode ++ ": " ++ message ++ "\nCode: " ++ code ++ "\n")⟩

/-- Shallow embedding of `DevServer.send404`. -/
def send404 (hs : Headers) (nowRequestId : String) : Response :=
  sendError hs nowRequestId "FILE_NOT_FOUND" "The page could not be found" 404

/-- Join strings with a separator; used to model path reassembly. -/
def joinSep (sep : String) : List String → String
  | [] => ""
  | [x] => x
  | x :: y :: rest => x ++ sep ++ joinSep sep (y :: rest)

/-- Model of Node's `path.basename`: the last slash-separated component. -/
def basename (p : String) : String :=
  match (splitChar '/' p).reverse with
  | [] => p
  | x :: _ => x

/-- Model of Node's `path.dirname`: everything before the last slash. -/
def dirname (p : String) : String :=
  match (splitChar '/' p).reverse with
  | [] => "."
  | [_] => "."
  | _ :: rest => joinSep "/" rest.reverse

/-- Removal of a leading prefix from a character list, when present. -/
def stripLeadingChars : List Char → List Char → Option (List Char)
  | [], l => some l
  | _ :: _, [] => none
  | p :: ps, c :: cs => if p = c then stripLeadingChars ps cs else none

/-- Model of `path.relative(cwd, fsPath)` for the entrypoint below `cwd`. -/
def relativePath (cwd p : String) : String :=
  match stripLeadingChars (cwd ++ "/").data p.data with
  | some rest => String.mk rest
  | none => p

/-- BuildEntry recorded on an artifact, when any. -/
def buildEntryOf : BuilderOutput → Option String
  | BuilderOutput.fileFsRef _ be => be
  | BuilderOutput.fileBlob _ be => be
  | BuilderOutput.lambda _ be => be
  | BuilderOutput.other _ => none

/-- Model of the guard `this.shouldRebuild(req) && asset.buildEntry`: the
build entry the rebuild will use, when the request carries cache-bypass
semantics and the asset records an entry. -/
def rebuildGate (req : Request) (asset : BuilderOutput) : Option String :=
  if shouldRebuild req then buildEntryOf asset else none

/-- Result of handling one request: the ended response, the external
actions taken, and the asset store afterwards. -/
structure ServeResult where
  response : Response
  actions : List Action
  assets : Assets
deriving DecidableEq

/-- Shallow embedding of the `switch (asset.type)` statement of the
complete variant's `serveProjectAsNowV2`.  The MIME table
(`mime-types`' `lookup`) is an external collaborator passed as a
parameter. -/
def serveAsset (mimeLookup : String → Option String)
    (nowRequestId assetKey : String) :
    BuilderOutput → Response × List Action
  | BuilderOutput.fileFsRef fsPath _ =>
    (⟨200, writeResponseHeaders [] nowRequestId [], Body.empty⟩,
     [Action.serveStatic (dirname fsPath) ("/" ++ basename fsPath)])
  | BuilderOutput.fileBlob data _ =>
    let blobHeaders :=
      match mimeLookup assetKey with
      | some ct => [("Content-Length", toString data.length), ("Content-Type", ct)]
      | none => [("Content-Length", toString data.length)]
    (⟨200, writeResponseHeaders [] nowRequestId blobHeaders, Body.text data⟩, [])
  | BuilderOutput.lambda fnOpt _ =>
    match fnOpt with
    | none =>
      -- the source ends the response directly here, without the Now headers
      (⟨500, [], Body.text "Lambda function has not been built"⟩, [])
    | some (Except.error _) =>
      (sendError [] nowRequestId "NO_STATUS_CODE_FROM_LAMBDA"
        "An error occurred with your deployment" 502, [])
    | some (Except.ok result) =>
      let resBody :=
        match result.body with
        | some (InvokeBody.str s) =>
          if result.encoding = some "base64" then Body.bytes (b64Decode s)
          else Body.text s
        | some (InvokeBody.buf bs) => Body.bytes bs
        | none => Body.empty
      (⟨result.statusCode,
        writeResponseHeaders [] nowRequestId result.headers, resBody⟩, [])
  | BuilderOutput.other t =>
    (sendError [] nowRequestId "UNKNOWN_ASSET_TYPE"
      ("Don't know how to handle asset type: " ++ t) 500, [])

/-- Shallow embedding of `DevServer.serveProjectAsStatic` of the complete
variant; the ignore list built by `createIgnoreList` (in `dev-builder`,
outside `src/`) is a parameter. -/
def serveProjectAsStatic (ignores : String → Bool) (cwd : String)
    (req : Request) (nowRequestId : String) : Response × List Action :=
  let filePath := stripOneLeadingSlash req.url
  if filePath ≠ "" ∧ ignores filePath then
    (send404 [] nowRequestId, [])
  else
    (⟨200, writeResponseHeaders [] nowRequestId [], Body.empty⟩,
     [Action.serveStatic cwd req.url])

/-- Shallow embedding of the asset-resolution sequence of the complete
variant's `serveProjectAsNowV2`: resolve `dest`; the `if (!asset ||
!assetKey)` guard answers 404 when no asset was found or when the
resolved asset key is falsy — the empty string, the only falsy value a
returned key can take; when the request carries cache-bypass semantics
and the asset records its build entry, `executeBuild` runs and the
destination is resolved again, subject to the same guard.  Returns the
entry to serve (`none` meaning the 404 path), the build actions taken,
and the possibly rebuilt asset store. -/
def resolveForServing (exec : Assets → Assets) (cwd : String) (req : Request)
    (assets : Assets) (dest : String) :
    Option (String × BuilderOutput) × List Action × Assets :=
  match resolveDest assets dest with
  | none => (none, [], assets)
  | some (key0, asset0) =>
    if key0 = "" then (none, [], assets)
    else
      match rebuildGate req asset0 with
      | some entryPath =>
        let assets2 := exec assets
        let acts := [Action.executeBuild (relativePath cwd entryPath)]
        match resolveDest assets2 dest with
        | none => (none, acts, assets2)
        | some (key1, asset1) =>
          if key1 = "" then (none, acts, assets2)
          else (some (key1, asset1), acts, assets2)
      | none => (some (key0, asset0), [], assets)

/-- Shallow embedding of the complete variant's
`DevServer.serveProjectAsNowV2`, parametrised by the routing decision
(`devRouter` lives outside `src/`), the MIME table, the ignore list, and
the effect of `executeBuild` on the asset store (`dev-builder` is outside
`src/`).  `hasBuilds` is whether `nowJson.builds` is an array.  Note the
redirect branch: the complete variant never set any response header
before it, so `res.getHeader('location')` is `undefined` there. -/
def serveProjectAsNowV2 (mimeLookup : String → Option String)
    (ignores : String → Bool) (exec : Assets → Assets) (cwd : String)
    (assets : Assets) (hasBuilds : Bool) (req : Request)
    (nowRequestId : String) (route : RouteResult) : ServeResult :=
  if isURL route.dest then
    ⟨⟨200, [], Body.empty⟩, [Action.proxyPass route.dest], assets⟩
  else if route.status = 301 ∨ route.status = 302 ∨ route.status = 303 then
    ⟨⟨route.status, [],
      Body.text ("Redirecting (" ++ toString route.status ++ ") to undefined")⟩,
     [], assets⟩
  else if hasBuilds = false then
    let r := serveProjectAsStatic ignores cwd req nowRequestId
    ⟨r.1, r.2, assets⟩
  else
    match resolveForServing exec cwd req assets route.dest with
    | (none, acts, assets2) => ⟨send404 [] nowRequestId, acts, assets2⟩
    | (some (k, a), acts, assets2) =>
      let r := serveAsset mimeLookup nowRequestId k a
      ⟨r.1, acts ++ r.2, assets2⟩

/-! Request serving: the newer dev-server variant (the one with the
`stopping` flag, env validation and the commented-out build pipeline). -/

/-- Shallow embedding of the live body of the newer variant's
`serveProjectAsNowV2`: it applies the matched route's headers, then either
proxy-passes, redirects (the body reads back `res.getHeader('location')`,
`undefined` rendering as the string "undefined"), or simply ends the
response — every statement after `res.end()` (asset resolution, build
dedup via `inProgressBuilds`, artifact serving) is commented out in the
source.  `getProjectFiles` / `updateBuildMatches`, which run before the
routing decision, touch only `buildMatches`, never `assets`. -/
def serveProjectAsNowV2Live (assets : Assets) (route : RouteResult) :
    ServeResult :=
  let hs := setAllHeaders [] route.headers
  if isURL route.dest then
    ⟨⟨200, hs, Body.empty⟩, [Action.proxyPass route.dest], assets⟩
  else if route.status = 301 ∨ route.status = 302 ∨ route.status = 303 then
    let loc :=
      match getHeader hs "location" with
      | some v => v
      | none => "undefined"
    ⟨⟨route.status, hs,
      Body.text ("Redirecting (" ++ toString route.status ++ ") to " ++ loc)⟩,
     [], assets⟩
  else
    ⟨⟨200, hs, Body.empty⟩, [], assets⟩

/-- Recogniser for build-execution actions. -/
def isBuildAction : Action → Bool
  | Action.executeBuild _ => true
  | _ => false

/-- Server state the shutdown logic and the handler's short-circuit read:
the `stopping` flag and the asset store. -/
structure DevState where
  stopping : Bool
  assets : Assets
deriving DecidableEq

/-- Shallow embedding of the newer variant's `DevServer.stop`: a second
call returns immediately; otherwise the flag is set, every Lambda asset
with a live `fn` handle is destroyed, and closing the listening server is
awaited together with the teardowns. -/
def stop (s : DevState) : DevState × List Action :=
  if s.stopping then (s, [])
  else
    (⟨true, s.assets⟩,
     (s.assets.filterMap fun p =>
        match p.2 with
        | BuilderOutput.lambda (some _) _ => some (Action.destroyLambda p.1)
        | _ => none)
       ++ [Action.closeServer])

/-- Shallow embedding of the newer variant's `devServerHandler`: when
`stopping` is set, the handler sets `Connection: close` and answers with
`send404` before any routing; otherwise it proceeds to
`serveProjectAsNowV2` (the `nowJson`-present path). -/
def devServerHandler (s : DevState) (nowRequestId : String)
    (route : RouteResult) : ServeResult :=
  if s.stopping then
    ⟨send404 [("Connection", "close")] nowRequestId, [], s.assets⟩
  else
    serveProjectAsNowV2Live s.assets route

/-! Configuration env validation (newer variant). -/

/-- Env mapping (`config.env`, `config.build.env`, or a parsed dotenv
file): an association list of name/value pairs, as a JS object. -/
abbrev EnvConfig := List (String × String)

/-- Model of `hasOwnProperty(obj, prop)` on an env mapping. -/
def hasOwn (m : EnvConfig) (k : String) : Bool :=
  m.any fun p => p.1 == k

/-- Model of `value.startsWith('@')`: the secret-reference sentinel. -/
def isSecretRef (v : String) : Bool :=
  match v.data with
  | '@' :: _ => true
  | _ => false

/-- Error taxonomy of `validateNowConfig`. -/
inductive ConfigError
  | missingDotenvVars (envType : String) (names : List String)
  | unsupportedVersion
deriving DecidableEq

/-- Shallow embedding of `DevServer.validateEnvConfig`: collect every name
whose value starts with the `@` sentinel and has no entry in the local
dotenv mapping; if at least one exists, throw one `MissingDotenvVarsError`
carrying all of them.  (Env values are strings, so the source's
`typeof value === 'string'` guard always holds in this model.) -/
def validateEnvConfig (envType : String) (env localEnv : EnvConfig) :
    Except ConfigError Unit :=
  let missing :=
    (env.filter fun p => isSecretRef p.2 && !(hasOwn localEnv p.1)).map
      Prod.fst
  if missing.length ≥ 1 then
    Except.error (ConfigError.missingDotenvVars envType missing)
  else Except.ok ()

/-- Project configuration fields `validateNowConfig` reads: the schema
version, `config.env` and `config.build.env` (empty when absent). -/
structure NowConfig where
  version : Nat
  env : EnvConfig
  buildEnv : EnvConfig
deriving DecidableEq

/-- Shallow embedding of the newer variant's `DevServer.validateNowConfig`:
reject any version other than 2, then validate `config.env` against the
local `.env` mapping and, if that passed, `config.build.env` against
`.env.build` (a thrown `MissingDotenvVarsError` aborts the sequence). -/
def validateNowConfig (cfg : NowConfig) (env buildEnvLocal : EnvConfig) :
    Except ConfigError Unit :=
  if cfg.version ≠ 2 then Except.error ConfigError.unsupportedVersion
  else
    match validateEnvConfig ".env" cfg.env env with
    | Except.error e => Except.error e
    | Except.ok _ => validateEnvConfig ".env.build" cfg.buildEnv buildEnvLocal

/-! Build-environment snapshot and restore (newer variant).  `process.env`
is a string-keyed map, modelled extensionally as a function to
`Option String`. -/

/-- Process-wide environment. -/
abbrev ProcEnv := String → Option String

/-- Model of `Object.assign(target, src)`: every key defined in `src` takes
its `src` value, every other key keeps its `target` value. -/
def assignEnv (target src : ProcEnv) : ProcEnv :=
  fun k =>
    match src k with
    | some v => some v
    | none => target k

/-- Shallow embedding of `DevServer.applyBuildEnv`:
`Object.assign(process.env, nowJson.build.env, this.buildEnv)`. -/
def applyBuildEnv (configBuildEnv localBuildEnv procEnv : ProcEnv) : ProcEnv :=
  assignEnv (assignEnv procEnv configBuildEnv) localBuildEnv

/-- Shallow embedding of the delete loop of `DevServer.restoreOriginalEnv`:
every key of `process.env` that the original snapshot does not own is
deleted. -/
def deleteNewKeys (originalEnv procEnv : ProcEnv) : ProcEnv :=
  fun k =>
    match originalEnv k with
    | some _ => procEnv k
    | none => none

/-- Shallow embedding of `DevServer.restoreOriginalEnv`: delete the keys
the snapshot does not own, then `Object.assign(process.env, originalEnv)`. -/
def restoreOriginalEnv (originalEnv procEnv : ProcEnv) : ProcEnv :=
  assignEnv (deleteNewKeys originalEnv procEnv) originalEnv

/-! Request trace ids. -/

/-- Model of JS `Array.join('-')`. -/
def joinDash : List String → String
  | [] => ""
  | [x] => x
  | x :: y :: rest => x ++ "-" ++ joinDash (y :: rest)

/-- Model of `s.slice(-5)`: the last five characters, or the whole string
when it is shorter. -/
def sliceLastFive (s : String) : String :=
  String.mk (s.data.drop (s.data.length - 5))

/-- Lower-case hexadecimal digit for a value below 16. -/
def hexDigit (n : Nat) : Char :=
  if n < 10 then Char.ofNat (48 + n) else Char.ofNat (87 + n)

/-- Two lower-case hexadecimal digits of one byte. -/
def byteToHexChars (b : Nat) : List Char :=
  [hexDigit (b / 16 % 16), hexDigit (b % 16)]

/-- Model of `buffer.toString('hex')` on a byte list. -/
def bytesToHexChars (bs : List Nat) : List Char :=
  (bs.map byteToHexChars).flatten

/-- Model of `randomBytes(16).toString('hex')` applied to given bytes. -/
def bytesToHex (bs : List Nat) : String :=
  String.mk (bytesToHexChars bs)

/-- Shallow embedding of `generateRequestId` (identical in both variants),
parametrised by its randomness: `randStr` is the string
`Math.random().toString(32)` produced, `nowMillis` is `Date.now()`, and
`bytes` are the 16 bytes `randomBytes(16)` produced. -/
def generateRequestId (randStr : String) (nowMillis : Nat)
    (bytes : List Nat) : String :=
  joinDash [sliceLastFive randStr, toString nowMillis, bytesToHex bytes]

/-- Lower-case hexadecimal digit test (`0`-`9` or `a`-`f`). -/
def isLowerHexDigit (c : Char) : Bool :=
  decide (48 ≤ c.toNat ∧ c.toNat ≤ 57) || decide (97 ≤ c.toNat ∧ c.toNat ≤ 102)

/-- Checker for the trace-id format exactly as claim C9 states it: three
fields joined by `-`, the first exactly 5 characters, the second a decimal
number, the third exactly 32 lower-case hexadecimal digits.  This follows
the claim's words so the generator can be compared against it. -/
def traceIdClaimFormat (id : String) : Bool :=
  match splitChar '-' id with
  | [f1, f2, f3] =>
    f1.length = 5 &&
      (f2.length ≥ 1 && f2.data.all Char.isDigit) &&
      (f3.length = 32 &&
        f3.data.all fun c => c.isDigit || ('a' ≤ c ∧ c ≤ 'f'))
  | _ => false

/-! Port binding loop of `DevServer.start` (identical in both variants). -/

/-- Outcome `listen(server, port)` can have at a given port. -/
inductive ListenOutcome
  | ok (address : String)
  | err (code : String)
deriving DecidableEq

/-- Shallow embedding of the `while` loop of `DevServer.start`: try the
requested port; on an `EADDRINUSE` listen error increase the port by one
and retry, on any other error propagate it.  The loop is modelled with
fuel; `none` is the loop still running (every tried port in use). -/
def startLoop (oracle : Nat → ListenOutcome) :
    Nat → Nat → Option (Except String (String × Nat))
  | 0, _ => none
  | fuel + 1, port =>
    match oracle port with
    | ListenOutcome.ok addr => some (Except.ok (addr, port))
    | ListenOutcome.err code =>
      if code = "EADDRINUSE" then startLoop oracle fuel (port + 1)
      else some (Except.error code)

end DevServer

namespace DevServer

/-- Presence of the three synthetic Now headers on a response, as claim C1
describes them: `x-now-trace`, `x-now-id` set to the request's trace id,
and the cache-status header `x-now-cache: MISS`. -/
def hasNowHeaders (resp : Response) (nowRequestId : String) : Prop :=
  getHeader resp.headers "x-now-trace" = some "dev1"
  ∧ getHeader resp.headers "x-now-id" = some nowRequestId
  ∧ getHeader resp.headers "x-now-cache" = some "MISS"

instance (resp : Response) (nowRequestId : String) :
    Decidable (hasNowHeaders resp nowRequestId) := by
  unfold hasNowHeaders
  infer_instance

end DevServer


namespace DevServer

/-! Helper lemmas about the header operations. -/

theorem getHeader_setHeader_self (hs : Headers) (n v m : String)
    (h : lowerStr m = lowerStr n) :
    getHeader (setHeader hs n v) m = some v := by
  induction hs with
  | nil => simp [setHeader, getHeader, h.symm]
  | cons p rest ih =>
    obtain ⟨k, w⟩ := p
    by_cases hk : lowerStr k = lowerStr n
    · simp [setHeader, getHeader, hk, h.symm]
    · have hkm : ¬ lowerStr k = lowerStr m := fun hh => hk (hh.trans h)
      simp [setHeader, getHeader, hk, hkm, ih]

theorem getHeader_setHeader_other (hs : Headers) (n v m : String)
    (h : ¬ lowerStr m = lowerStr n) :
    getHeader (setHeader hs n v) m = getHeader hs m := by
  induction hs with
  | nil =>
    simp [setHeader, getHeader]
    exact fun hh => h hh.symm
  | cons p rest ih =>
    obtain ⟨k, w⟩ := p
    by_cases hk : lowerStr k = lowerStr n
    · have hnm : ¬ lowerStr n = lowerStr m := fun hh => h hh.symm
      have hkm : ¬ lowerStr k = lowerStr m := fun hh => h ((hk.symm.trans hh).symm)
      simp [setHeader, getHeader, hk, hnm, hkm]
    · by_cases hm : lowerStr k = lowerStr m
      · simp [setHeader, getHeader, hk, hm, h]
      · simp [setHeader, getHeader, hk, hm, ih]

theorem getHeader_write_trace (hs : Headers) (nowRequestId : String)
    (extra : Headers) :
    getHeader (writeResponseHeaders hs nowRequestId extra) "x-now-trace"
      = some "dev1" := by
  unfold writeResponseHeaders
  rw [getHeader_setHeader_other _ _ _ _ (by decide)]
  rw [getHeader_setHeader_other _ _ _ _ (by decide)]
  rw [getHeader_setHeader_self _ _ _ _ (by decide)]

theorem getHeader_write_id (hs : Headers) (nowRequestId : String)
    (extra : Headers) :
    getHeader (writeResponseHeaders hs nowRequestId extra) "x-now-id"
      = some nowRequestId := by
  unfold writeResponseHeaders
  rw [getHeader_setHeader_other _ _ _ _ (by decide)]
  rw [getHeader_setHeader_self _ _ _ _ (by decide)]

theorem getHeader_write_cache (hs : Headers) (nowRequestId : String)
    (extra : Headers) :
    getHeader (writeResponseHeaders hs nowRequestId extra) "x-now-cache"
      = some "MISS" := by
  unfold writeResponseHeaders
  rw [getHeader_setHeader_self _ _ _ _ (by decide)]

theorem getHeader_write_other (hs : Headers) (nowRequestId : String)
    (extra : Headers) (m : String)
    (h1 : ¬ lowerStr m = lowerStr "x-now-trace")
    (h2 : ¬ lowerStr m = lowerStr "x-now-id")
    (h3 : ¬ lowerStr m = lowerStr "x-now-cache") :
    getHeader (writeResponseHeaders hs nowRequestId extra) m
      = getHeader (setAllHeaders hs extra) m := by
  unfold writeResponseHeaders
  rw [getHeader_setHeader_other _ _ _ _ h3]
  rw [getHeader_setHeader_other _ _ _ _ h2]
  rw [getHeader_setHeader_other _ _ _ _ h1]

end DevServer

namespace DevServer

/-! Lemmas about hexadecimal rendering of random bytes. -/

theorem hexDigit_lower : ∀ n, n < 16 → isLowerHexDigit (hexDigit n) = true := by
  decide

theorem bytesToHexChars_length (bs : List Nat) :
    (bytesToHexChars bs).length = 2 * bs.length := by
  induction bs with
  | nil => simp [bytesToHexChars]
  | cons b rest ih =>
    simp only [bytesToHexChars, List.map_cons, List.flatten_cons,
      List.length_append, List.length_cons] at *
    simp [byteToHexChars, ih]
    omega

theorem bytesToHexChars_lower (bs : List Nat) :
    ∀ c ∈ bytesToHexChars bs, isLowerHexDigit c = true := by
  induction bs with
  | nil => simp [bytesToHexChars]
  | cons b rest ih =>
    intro c hc
    simp only [bytesToHexChars, List.map_cons, List.flatten_cons,
      List.mem_append] at hc
    rcases hc with hc | hc
    · simp only [byteToHexChars, List.mem_cons, List.mem_singleton] at hc
      rcases hc with rfl | rfl | hfalse
      · exact hexDigit_lower _ (Nat.mod_lt _ (by omega))
      · exact hexDigit_lower _ (Nat.mod_lt _ (by omega))
      · cases hfalse
    · exact ih c hc

/-- Claim C7: after `applyBuildEnv` (which assigns the config's `build.env`
and the local build env onto `process.env`) followed by
`restoreOriginalEnv`, the process environment equals the `originalEnv`
snapshot at every key: keys the snapshot does not own are deleted and
every snapshotted key/value is reinstated, so no build's environment leaks
past the restore. -/
theorem buildEnv_restore_roundTrip
    (originalEnv procEnv configBuildEnv localBuildEnv : ProcEnv) (k : String) :
    restoreOriginalEnv originalEnv
      (applyBuildEnv configBuildEnv localBuildEnv procEnv) k = originalEnv k := by
  unfold restoreOriginalEnv assignEnv deleteNewKeys
  cases h : originalEnv k <;> simp [h]

/-- Claim C9, counterexample: `Math.random()` can return `0.5`, whose
base-32 rendering is the three-character string `"0.g"`; `slice(-5)` then
keeps all three characters, so the generated id's first field is not
5 characters long and the claimed `<rand5>-<epochMillis>-<hex32>` format
(formalised by `traceIdClaimFormat`, following the claim's words) is
violated. -/
theorem generateRequestId_claim_counterexample :
    traceIdClaimFormat
      (generateRequestId "0.g" 1553895116335 (List.replicate 16 0)) = false := by
  decide

/-- Claim C9, amended: a generated trace id is the three fields joined by
`-`, where the first field is the last `min 5 (length of the base-32
string)` characters of the base-32 rendering of the random number (5 in
the typical case, fewer when the rendering is short), the second is the
epoch-milliseconds timestamp in decimal, and the third is exactly 32
lower-case hexadecimal digits derived from the 16 random bytes. -/
theorem generateRequestId_format (randStr : String) (nowMillis : Nat)
    (bytes : List Nat) (hb : bytes.length = 16) :
    generateRequestId randStr nowMillis bytes
        = sliceLastFive randStr ++ "-" ++ toString nowMillis ++ "-" ++ bytesToHex bytes
      ∧ (sliceLastFive randStr).data.length = min 5 randStr.data.length
      ∧ List.IsSuffix (sliceLastFive randStr).data randStr.data
      ∧ (bytesToHex bytes).data.length = 32
      ∧ ∀ c ∈ (bytesToHex bytes).data, isLowerHexDigit c = true := by
  refine ⟨?_, ?_, ?_, ?_, ?_⟩
  · simp [generateRequestId, joinDash, String.append_assoc]
  · simp [sliceLastFive]
    omega
  · exact List.drop_suffix _ _
  · simp [bytesToHex, bytesToHexChars_length, hb]
  · exact bytesToHexChars_lower bytes

/-- Claim C9 witness: the amended format at a concrete random string,
timestamp and byte list. -/
theorem generateRequestId_format_witness :
    generateRequestId "0.abcde" 1553895116335 (List.replicate 16 255)
        = "abcde" ++ "-" ++ "1553895116335" ++ "-" ++ bytesToHex (List.replicate 16 255)
      ∧ (bytesToHex (List.replicate 16 255)).data.length = 32 := by
  have h := generateRequestId_format "0.abcde" 1553895116335
    (List.replicate 16 255) (by decide)
  exact ⟨by rw [h.1]; rfl, h.2.2.2.1⟩

end DevServer

namespace DevServer

/-- Claim C10: `start(port)` treats the requested port as a starting point.
With any listen oracle, (a) a listen failure whose code is not
`EADDRINUSE` is propagated as the loop's error, so the server does not
start; (b) whenever the loop resolves to a bound address, the bound port
is at least the requested one, that port accepted the bind, and every port
between the requested one and the bound one failed with `EADDRINUSE`
(each retry increments by one). -/
theorem start_port_retry (oracle : Nat → ListenOutcome) :
    (∀ fuel port code, oracle port = ListenOutcome.err code →
        code ≠ "EADDRINUSE" →
        startLoop oracle (fuel + 1) port = some (Except.error code))
      ∧ (∀ fuel port q addr,
          startLoop oracle fuel port = some (Except.ok (addr, q)) →
          port ≤ q ∧ oracle q = ListenOutcome.ok addr ∧
            ∀ r, port ≤ r → r < q → oracle r = ListenOutcome.err "EADDRINUSE") := by
  constructor
  · intro fuel port code h hne
    simp [startLoop, h, hne]
  · intro fuel
    induction fuel with
    | zero =>
      intro port q addr h
      simp [startLoop] at h
    | succ n ih =>
      intro port q addr h
      rw [startLoop] at h
      split at h
      next a heq =>
        simp only [Option.some.injEq, Except.ok.injEq, Prod.mk.injEq] at h
        obtain ⟨rfl, rfl⟩ := h
        exact ⟨Nat.le_refl _, heq,
          fun r hr1 hr2 => absurd (Nat.lt_of_le_of_lt hr1 hr2) (Nat.lt_irrefl _)⟩
      next code heq =>
        split at h
        next hc =>
          obtain ⟨h1, h2, h3⟩ := ih (port + 1) q addr h
          refine ⟨Nat.le_trans (Nat.le_succ _) h1, h2, ?_⟩
          intro r hr1 hr2
          rcases Nat.eq_or_lt_of_le hr1 with rfl | hlt
          · rw [heq, hc]
          · exact h3 r hlt hr2
        next hc => simp at h
  

/-- Claim C10 witness: requested port 3000 in use, port 3001 free — the
loop binds port 3001 (> 3000); and a non-`EADDRINUSE` failure such as
`EACCES` at the requested port is propagated. -/
theorem start_port_retry_witness :
    (startLoop (fun p => if p = 3000 then ListenOutcome.err "EADDRINUSE"
        else ListenOutcome.ok "addr") 2 3000 = some (Except.ok ("addr", 3001))
      ∧ 3000 ≤ 3001)
    ∧ startLoop (fun _ => ListenOutcome.err "EACCES") 1 3000
      = some (Except.error "EACCES") := by
  constructor
  · constructor
    · decide
    · exact (start_port_retry (fun p => if p = 3000 then ListenOutcome.err "EADDRINUSE"
        else ListenOutcome.ok "addr")).2 2 3000 3001 "addr" (by decide) |>.1
  · exact (start_port_retry (fun _ => ListenOutcome.err "EACCES")).1 0 3000
      "EACCES" rfl (by decide)

end DevServer

namespace DevServer

/-- Claim C6: for an env mapping of the project config validated against
its local dotenv mapping, (a) if at least one value starts with the `@`
sentinel and its name has no local entry, validation fails with a single
`MissingDotenvVarsError` whose name list contains exactly the names of all
such variables; (b) if no such value exists, the mapping validates
successfully; (c) consequently a version-2 config whose `env` and
`build.env` are both clean passes `validateNowConfig`. -/
theorem validateEnvConfig_missing_vars (envType : String)
    (env localEnv : EnvConfig) :
    ((∃ p, p ∈ env ∧ isSecretRef p.2 = true ∧ hasOwn localEnv p.1 = false) →
      ∃ names, validateEnvConfig envType env localEnv
          = Except.error (ConfigError.missingDotenvVars envType names) ∧
        ∀ n, n ∈ names ↔
          ∃ v, (n, v) ∈ env ∧ isSecretRef v = true ∧ hasOwn localEnv n = false)
    ∧ ((∀ p, p ∈ env → isSecretRef p.2 = true → hasOwn localEnv p.1 = true) →
      validateEnvConfig envType env localEnv = Except.ok ())
    ∧ (∀ (cfg : NowConfig) (buildLocal : EnvConfig),
        cfg.version = 2 → cfg.env = env →
        (∀ p, p ∈ env → isSecretRef p.2 = true → hasOwn localEnv p.1 = true) →
        (∀ p, p ∈ cfg.buildEnv → isSecretRef p.2 = true →
          hasOwn buildLocal p.1 = true) →
        validateNowConfig cfg localEnv buildLocal = Except.ok ()) := by
  have memChar : ∀ n,
      (n ∈ (env.filter fun p => isSecretRef p.2 && !(hasOwn localEnv p.1)).map
          Prod.fst) ↔
        ∃ v, (n, v) ∈ env ∧ isSecretRef v = true ∧ hasOwn localEnv n = false := by
    intro n
    rw [List.mem_map]
    constructor
    · rintro ⟨⟨a, b⟩, hmem, rfl⟩
      rw [List.mem_filter] at hmem
      obtain ⟨henv, hf⟩ := hmem
      rw [Bool.and_eq_true, Bool.not_eq_true'] at hf
      exact ⟨b, henv, hf.1, hf.2⟩
    · rintro ⟨v, henv, hsec, hown⟩
      refine ⟨(n, v), ?_, rfl⟩
      rw [List.mem_filter]
      exact ⟨henv, by rw [Bool.and_eq_true, Bool.not_eq_true']; exact ⟨hsec, hown⟩⟩
  have okCase : ∀ (t : String) (e loc : EnvConfig),
      (∀ p, p ∈ e → isSecretRef p.2 = true → hasOwn loc p.1 = true) →
      validateEnvConfig t e loc = Except.ok () := by
    intro t e loc hall
    have hfil :
        (e.filter fun p => isSecretRef p.2 && !(hasOwn loc p.1)) = [] := by
      rw [List.filter_eq_nil_iff]
      intro p hp
      by_cases hs : isSecretRef p.2 = true
      · simp [hs, hall p hp hs]
      · rw [Bool.not_eq_true] at hs
        simp [hs]
    simp [validateEnvConfig, hfil]
  refine ⟨?_, okCase envType env localEnv, ?_⟩
  · rintro ⟨p, hp, hsec, hown⟩
    refine ⟨(env.filter fun q => isSecretRef q.2 && !(hasOwn localEnv q.1)).map
      Prod.fst, ?_, memChar⟩
    have hmem : p.1 ∈ (env.filter fun q =>
        isSecretRef q.2 && !(hasOwn localEnv q.1)).map Prod.fst := by
      rw [memChar]
      exact ⟨p.2, hp, hsec, hown⟩
    have hlen : 1 ≤ ((env.filter fun q =>
        isSecretRef q.2 && !(hasOwn localEnv q.1)).map Prod.fst).length :=
      List.length_pos.mpr (List.ne_nil_of_mem hmem)
    simp only [validateEnvConfig]
    rw [if_pos hlen]
  · intro cfg buildLocal hv henv hclean1 hclean2
    have h1 : validateEnvConfig ".env" cfg.env localEnv = Except.ok () := by
      rw [henv]
      exact okCase ".env" env localEnv hclean1
    have h2 : validateEnvConfig ".env.build" cfg.buildEnv buildLocal
        = Except.ok () := okCase ".env.build" cfg.buildEnv buildLocal hclean2
    simp [validateNowConfig, hv, h1, h2]

/-- Claim C6 witness: a mapping with two unresolved secret references
fails with both names at once, and a mapping whose secret reference is
locally resolvable validates. -/
theorem validateEnvConfig_missing_vars_witness :
    validateEnvConfig ".env" [("A", "@sa"), ("B", "x"), ("C", "@sc")] []
        = Except.error (ConfigError.missingDotenvVars ".env" ["A", "C"])
      ∧ validateEnvConfig ".env" [("A", "@sa")] [("A", "y")] = Except.ok () := by
  constructor
  · decide
  · exact (validateEnvConfig_missing_vars ".env" [("A", "@sa")] [("A", "y")]).2.1
      (by decide)

end DevServer

namespace DevServer

end DevServer

namespace DevServer

/-- Claim C5: when the routing decision has status 301, 302 or 303 and a
destination that is not a URL, the newer variant's handler responds with
exactly that status, carries exactly the matched rule's headers (set in
order on the response, which is how `Location` gets there), ends the
response with the body `Redirecting (<status>) to <location>`, takes no
external action, and leaves the asset store untouched. -/
theorem redirect_branch (assets : Assets) (route : RouteResult) (loc : String)
    (hstatus : route.status = 301 ∨ route.status = 302 ∨ route.status = 303)
    (hurl : isURL route.dest = false)
    (hloc : getHeader (setAllHeaders [] route.headers) "location" = some loc) :
    (serveProjectAsNowV2Live assets route).response.statusCode = route.status
    ∧ (serveProjectAsNowV2Live assets route).response.headers
      = setAllHeaders [] route.headers
    ∧ (serveProjectAsNowV2Live assets route).response.body
      = Body.text ("Redirecting (" ++ toString route.status ++ ") to " ++ loc)
    ∧ (serveProjectAsNowV2Live assets route).actions = []
    ∧ (serveProjectAsNowV2Live assets route).assets = assets := by
  rcases hstatus with h | h | h <;>
    simp [serveProjectAsNowV2Live, hurl, h, hloc]

/-- Claim C5 witness: a 302 redirect rule carrying a `Location` header. -/
theorem redirect_branch_witness :
    (serveProjectAsNowV2Live [("k", BuilderOutput.other "t")]
        ⟨"/old", 302, [("Location", "/new")]⟩).response.statusCode = 302
    ∧ (serveProjectAsNowV2Live [("k", BuilderOutput.other "t")]
        ⟨"/old", 302, [("Location", "/new")]⟩).response.body
      = Body.text "Redirecting (302) to /new"
    ∧ (serveProjectAsNowV2Live [("k", BuilderOutput.other "t")]
        ⟨"/old", 302, [("Location", "/new")]⟩).assets
      = [("k", BuilderOutput.other "t")] := by
  have h := redirect_branch [("k", BuilderOutput.other "t")]
    ⟨"/old", 302, [("Location", "/new")]⟩ "/new"
    (Or.inr (Or.inl rfl)) (by decide) (by decide)
  exact ⟨h.1, h.2.2.1, h.2.2.2.2⟩

/-- Claim C3 (code defect): the live body of the newer variant's
`serveProjectAsNowV2` never executes a build and never changes the asset
store — for every request it ends the response right after the redirect
check, because the whole build/dedup pipeline (including every use of the
`inProgressBuilds` map declared in the constructor) is commented out.  Two
concurrent rebuild requests therefore perform zero underlying build
executions, not the claimed single deduplicated one. -/
theorem live_handler_performs_no_builds (assets : Assets) (route : RouteResult) :
    (serveProjectAsNowV2Live assets route).actions.countP isBuildAction = 0
    ∧ (serveProjectAsNowV2Live assets route).assets = assets := by
  cases h1 : isURL route.dest <;>
    by_cases h2 : route.status = 301 ∨ route.status = 302 ∨ route.status = 303 <;>
      simp [serveProjectAsNowV2Live, h1, h2, isBuildAction, List.countP_cons]

end DevServer

namespace DevServer

/-- Claim C8: `stop()` is idempotent (a second call returns immediately
with no further teardown), the resulting state always carries the
`stopping` flag (it is set before the returned teardown operations are
awaited), on the first call the awaited operations destroy the function
handle of every Lambda-typed asset and end with closing the listening
server (so `stop` resolves only after the socket has closed), and once
`stopping` is set the handler answers every new request with the 404
`FILE_NOT_FOUND` error response carrying `Connection: close`, taking no
routing, proxying or serving action and leaving the assets untouched. -/
theorem stop_and_stopping (s : DevState) (nowRequestId : String)
    (route : RouteResult) :
    (s.stopping = true → stop s = (s, []))
    ∧ (stop s).1.stopping = true
    ∧ (s.stopping = false →
        (∀ key fn be, (key, BuilderOutput.lambda (some fn) be) ∈ s.assets →
          Action.destroyLambda key ∈ (stop s).2)
        ∧ (stop s).2.getLast? = some Action.closeServer)
    ∧ (s.stopping = true →
        (devServerHandler s nowRequestId route).response.statusCode = 404
        ∧ (devServerHandler s nowRequestId route).response.body
          = Body.text "404: The page could not be found\nCode: FILE_NOT_FOUND\n"
        ∧ getHeader (devServerHandler s nowRequestId route).response.headers
            "connection" = some "close"
        ∧ getHeader (devServerHandler s nowRequestId route).response.headers
            "x-now-id" = some nowRequestId
        ∧ (devServerHandler s nowRequestId route).actions = []
        ∧ (devServerHandler s nowRequestId route).assets = s.assets) := by
  refine ⟨?_, ?_, ?_, ?_⟩
  · intro h
    simp [stop, h]
  · by_cases h : s.stopping <;> simp [stop, h]
  · intro h
    constructor
    · intro key fn be hmem
      simp only [stop, h, Bool.false_eq_true, if_false]
      rw [List.mem_append]
      left
      rw [List.mem_filterMap]
      exact ⟨(key, BuilderOutput.lambda (some fn) be), hmem, rfl⟩
    · simp only [stop, h, Bool.false_eq_true, if_false]
      exact List.getLast?_concat _
  · intro h
    have hred : devServerHandler s nowRequestId route
        = ⟨send404 [("Connection", "close")] nowRequestId, [], s.assets⟩ := by
      simp [devServerHandler, h]
    rw [hred]
    refine ⟨rfl, rfl, ?_, ?_, rfl, rfl⟩
    · show getHeader (send404 [("Connection", "close")] nowRequestId).headers
        "connection" = some "close"
      simp only [send404, sendError]
      rw [getHeader_write_other _ _ _ _ (by decide) (by decide) (by decide)]
      rfl
    · show getHeader (send404 [("Connection", "close")] nowRequestId).headers
        "x-now-id" = some nowRequestId
      simp only [send404, sendError]
      rw [getHeader_write_id]

/-- Claim C8 witness: a concrete state with one Lambda asset and one
static asset — stopping destroys the Lambda and closes the server, a
second stop is a no-op, and a request arriving while stopping gets the
connection-close 404. -/
theorem stop_and_stopping_witness :
    (stop ⟨false, [("fn1", BuilderOutput.lambda (some (Except.error "boom")) none),
        ("a.html", BuilderOutput.fileFsRef "/p/a.html" none)]⟩).2.getLast?
        = some Action.closeServer
    ∧ Action.destroyLambda "fn1" ∈
        (stop ⟨false, [("fn1", BuilderOutput.lambda (some (Except.error "boom")) none),
          ("a.html", BuilderOutput.fileFsRef "/p/a.html" none)]⟩).2
    ∧ stop ⟨true, []⟩ = (⟨true, []⟩, [])
    ∧ (devServerHandler ⟨true, []⟩ "rid" ⟨"/x", 200, []⟩).response.statusCode = 404
    ∧ getHeader (devServerHandler ⟨true, []⟩ "rid"
        ⟨"/x", 200, []⟩).response.headers "connection" = some "close" := by
  refine ⟨?_, ?_, ?_, ?_, ?_⟩
  · exact ((stop_and_stopping ⟨false, [("fn1", BuilderOutput.lambda
      (some (Except.error "boom")) none),
      ("a.html", BuilderOutput.fileFsRef "/p/a.html" none)]⟩ "rid"
      ⟨"/x", 200, []⟩).2.2.1 rfl).2
  · exact ((stop_and_stopping ⟨false, [("fn1", BuilderOutput.lambda
      (some (Except.error "boom")) none),
      ("a.html", BuilderOutput.fileFsRef "/p/a.html" none)]⟩ "rid"
      ⟨"/x", 200, []⟩).2.2.1 rfl).1 "fn1" (Except.error "boom") none
      (List.mem_cons_self _ _)
  · exact (stop_and_stopping ⟨true, []⟩ "rid" ⟨"/x", 200, []⟩).1 rfl
  · exact ((stop_and_stopping ⟨true, []⟩ "rid" ⟨"/x", 200, []⟩).2.2.2 rfl).1
  · exact ((stop_and_stopping ⟨true, []⟩ "rid" ⟨"/x", 200, []⟩).2.2.2 rfl).2.2.1

end DevServer

namespace DevServer

/-- Claim C2: with builds declared, a request whose routing decision is not
a URL and not a redirect, and whose resolution procedure (`resolveDest`,
the `!asset || !assetKey` guard, and a forced rebuild with re-resolution
when the request carries cache-bypass semantics) lands on a Lambda asset
with a built `fn` handle: if the invocation throws, the server responds
502 with the `NO_STATUS_CODE_FROM_LAMBDA` body; if it returns
`{statusCode, headers, encoding, body}`, the response carries that status,
relays every returned header (except the `x-now-*` trace names, which the
synthetic trace headers overwrite), and the body is the base64 decoding of
`body` when `encoding` is `'base64'` and `body` is a string, otherwise
`body` verbatim. -/
theorem lambda_invocation_response
    (mimeLookup : String → Option String) (ignores : String → Bool)
    (exec : Assets → Assets) (cwd : String) (assets : Assets) (req : Request)
    (nowRequestId : String) (route : RouteResult)
    (k : String) (fnr : LambdaFn) (be : Option String)
    (hurl : isURL route.dest = false)
    (hnr : ¬ (route.status = 301 ∨ route.status = 302 ∨ route.status = 303))
    (hres : (resolveForServing exec cwd req assets route.dest).1
      = some (k, BuilderOutput.lambda (some fnr) be)) :
    let R := serveProjectAsNowV2 mimeLookup ignores exec cwd assets true req
      nowRequestId route
    (∀ msg, fnr = Except.error msg →
      R.response.statusCode = 502
      ∧ R.response.body = Body.text
          "502: An error occurred with your deployment\nCode: NO_STATUS_CODE_FROM_LAMBDA\n")
    ∧ (∀ result, fnr = Except.ok result →
        R.response.statusCode = result.statusCode
        ∧ (∀ n, ¬ lowerStr n = lowerStr "x-now-trace" →
            ¬ lowerStr n = lowerStr "x-now-id" →
            ¬ lowerStr n = lowerStr "x-now-cache" →
            getHeader R.response.headers n
              = getHeader (setAllHeaders [] result.headers) n)
        ∧ (∀ s, result.encoding = some "base64" →
            result.body = some (InvokeBody.str s) →
            R.response.body = Body.bytes (b64Decode s))
        ∧ (∀ s, ¬ result.encoding = some "base64" →
            result.body = some (InvokeBody.str s) →
            R.response.body = Body.text s)
        ∧ (∀ bs, result.body = some (InvokeBody.buf bs) →
            R.response.body = Body.bytes bs)
        ∧ (result.body = none → R.response.body = Body.empty)) := by
  intro R
  rcases hT : resolveForServing exec cwd req assets route.dest with
    ⟨o, acts2, assets2⟩
  rw [hT] at hres
  have ho : o = some (k, BuilderOutput.lambda (some fnr) be) := hres
  subst ho
  constructor
  · intro msg hfr
    subst hfr
    have hred : R.response = sendError [] nowRequestId
        "NO_STATUS_CODE_FROM_LAMBDA" "An error occurred with your deployment"
        502 := by
      show (serveProjectAsNowV2 mimeLookup ignores exec cwd assets true req
        nowRequestId route).response = _
      simp [serveProjectAsNowV2, hurl, hnr, hT, serveAsset]
    rw [hred]
    exact ⟨rfl, rfl⟩
  · intro result hfr
    subst hfr
    have hred : R.response
        = ⟨result.statusCode, writeResponseHeaders [] nowRequestId result.headers,
           match result.body with
           | some (InvokeBody.str s) =>
             if result.encoding = some "base64" then Body.bytes (b64Decode s)
             else Body.text s
           | some (InvokeBody.buf bs) => Body.bytes bs
           | none => Body.empty⟩ := by
      show (serveProjectAsNowV2 mimeLookup ignores exec cwd assets true req
        nowRequestId route).response = _
      simp [serveProjectAsNowV2, hurl, hnr, hT, serveAsset]
    rw [hred]
    refine ⟨rfl, ?_, ?_, ?_, ?_, ?_⟩
    · intro n h1 h2 h3
      exact getHeader_write_other _ _ _ _ h1 h2 h3
    · intro s henc hbody
      simp [hbody, henc]
    · intro s henc hbody
      simp [hbody, henc]
    · intro bs hbody
      simp [hbody]
    · intro hbody
      simp [hbody]

/-- Claim C2 witness: the stub invocation result
`{statusCode: 200, body: "aGVsbG8=", encoding: "base64"}` yields response
status 200 and body `hello` (the five bytes of the base64 decoding). -/
theorem lambda_invocation_response_witness :
    (serveProjectAsNowV2 (fun _ => none) (fun _ => false) (fun a => a) "cwd"
        [("api/fn", BuilderOutput.lambda (some (Except.ok
          ⟨200, [], some "base64", some (InvokeBody.str "aGVsbG8=")⟩)) none)]
        true ⟨"GET", "/api/fn", []⟩ "rid"
        ⟨"/api/fn", 200, []⟩).response.statusCode = 200
    ∧ (serveProjectAsNowV2 (fun _ => none) (fun _ => false) (fun a => a) "cwd"
        [("api/fn", BuilderOutput.lambda (some (Except.ok
          ⟨200, [], some "base64", some (InvokeBody.str "aGVsbG8=")⟩)) none)]
        true ⟨"GET", "/api/fn", []⟩ "rid"
        ⟨"/api/fn", 200, []⟩).response.body
      = Body.bytes (b64Decode "aGVsbG8=")
    ∧ b64Decode "aGVsbG8=" = [104, 101, 108, 108, 111] := by
  have h := (lambda_invocation_response (fun _ => none) (fun _ => false)
    (fun a => a) "cwd"
    [("api/fn", BuilderOutput.lambda (some (Except.ok
      ⟨200, [], some "base64", some (InvokeBody.str "aGVsbG8=")⟩)) none)]
    ⟨"GET", "/api/fn", []⟩ "rid" ⟨"/api/fn", 200, []⟩
    "api/fn" (Except.ok ⟨200, [], some "base64", some (InvokeBody.str "aGVsbG8=")⟩)
    none (by decide) (by decide) (by decide)).2
    ⟨200, [], some "base64", some (InvokeBody.str "aGVsbG8=")⟩ rfl
  exact ⟨h.1, h.2.2.1 "aGVsbG8=" rfl rfl, by decide⟩

end DevServer

namespace DevServer

theorem hasNowHeaders_write (st : Nat) (hs extra : Headers)
    (nowRequestId : String) (bd : Body) :
    hasNowHeaders ⟨st, writeResponseHeaders hs nowRequestId extra, bd⟩
      nowRequestId :=
  ⟨getHeader_write_trace hs nowRequestId extra,
   getHeader_write_id hs nowRequestId extra,
   getHeader_write_cache hs nowRequestId extra⟩

theorem hasNowHeaders_sendError (hs : Headers) (nowRequestId code msg : String)
    (st : Nat) :
    hasNowHeaders (sendError hs nowRequestId code msg st) nowRequestId :=
  hasNowHeaders_write st hs [] nowRequestId _

/-- Claim C1, counterexample: a 301 redirect decision (with a non-URL
destination) is answered without any header being set at all in the
complete dev-server variant — in particular without `x-now-id`,
`x-now-trace` and `x-now-cache` — refuting "the response carries the
synthetic trace and cache headers regardless of which branch produced
it". -/
theorem redirect_missing_nowHeaders :
    (serveProjectAsNowV2 (fun _ => none) (fun _ => false) (fun a => a) "cwd"
        [] true ⟨"GET", "/x", []⟩ "rid"
        ⟨"/t", 301, [("Location", "/t")]⟩).response.headers = []
    ∧ getHeader (serveProjectAsNowV2 (fun _ => none) (fun _ => false)
        (fun a => a) "cwd" [] true ⟨"GET", "/x", []⟩ "rid"
        ⟨"/t", 301, [("Location", "/t")]⟩).response.headers "x-now-id"
      = none := by
  exact ⟨rfl, rfl⟩

/-- Claim C1, amended: the complete variant sets the synthetic trace
headers (`x-now-trace: dev1`, `x-now-id: <trace id>`) and the cache-status
header `x-now-cache: MISS` on every response it completes through
`writeResponseHeaders` — the static-file, blob, Lambda-success,
Lambda-invocation-error (502) and error (404 / unknown-asset-type)
branches, where the 404 covers every outcome of the resolution procedure
(no asset found, a falsy empty asset key rejected by the `!asset ||
!assetKey` guard, before or after a forced rebuild) — but the redirect
branch and the proxy-pass branch end or relay the response without
setting them, as does the Lambda-not-built 500.  The serving clauses
quantify over the resolution outcome for arbitrary requests, cache-busting
ones included. -/
theorem nowHeaders_by_branch (mimeLookup : String → Option String)
    (ignores : String → Bool) (exec : Assets → Assets) (cwd : String)
    (assets : Assets) (hasBuilds : Bool) (req : Request)
    (nowRequestId : String) (route : RouteResult) :
    let R := serveProjectAsNowV2 mimeLookup ignores exec cwd assets hasBuilds
      req nowRequestId route
    (isURL route.dest = false →
      (route.status = 301 ∨ route.status = 302 ∨ route.status = 303) →
      R.response.headers = [])
    ∧ (isURL route.dest = true →
        R.actions = [Action.proxyPass route.dest] ∧ R.response.headers = [])
    ∧ (isURL route.dest = false →
        ¬ (route.status = 301 ∨ route.status = 302 ∨ route.status = 303) →
        hasBuilds = false →
        hasNowHeaders R.response nowRequestId)
    ∧ (isURL route.dest = false →
        ¬ (route.status = 301 ∨ route.status = 302 ∨ route.status = 303) →
        hasBuilds = true →
        ((resolveForServing exec cwd req assets route.dest).1 = none →
          hasNowHeaders R.response nowRequestId)
        ∧ (∀ k p be, (resolveForServing exec cwd req assets route.dest).1
              = some (k, BuilderOutput.fileFsRef p be) →
            hasNowHeaders R.response nowRequestId)
        ∧ (∀ k d be, (resolveForServing exec cwd req assets route.dest).1
              = some (k, BuilderOutput.fileBlob d be) →
            hasNowHeaders R.response nowRequestId)
        ∧ (∀ k r be, (resolveForServing exec cwd req assets route.dest).1
              = some (k, BuilderOutput.lambda (some r) be) →
            hasNowHeaders R.response nowRequestId)
        ∧ (∀ k be, (resolveForServing exec cwd req assets route.dest).1
              = some (k, BuilderOutput.lambda none be) →
            R.response.headers = [])
        ∧ (∀ k t, (resolveForServing exec cwd req assets route.dest).1
              = some (k, BuilderOutput.other t) →
            hasNowHeaders R.response nowRequestId)) := by
  intro R
  refine ⟨?_, ?_, ?_, ?_⟩
  · intro hurl hs
    show (serveProjectAsNowV2 mimeLookup ignores exec cwd assets hasBuilds
      req nowRequestId route).response.headers = []
    rcases hs with h | h | h <;> simp [serveProjectAsNowV2, hurl, h]
  · intro hurl
    constructor
    · show (serveProjectAsNowV2 mimeLookup ignores exec cwd assets hasBuilds
        req nowRequestId route).actions = _
      simp [serveProjectAsNowV2, hurl]
    · show (serveProjectAsNowV2 mimeLookup ignores exec cwd assets hasBuilds
        req nowRequestId route).response.headers = []
      simp [serveProjectAsNowV2, hurl]
  · intro hurl hnr hb
    show hasNowHeaders (serveProjectAsNowV2 mimeLookup ignores exec cwd assets
      hasBuilds req nowRequestId route).response nowRequestId
    by_cases hig : stripOneLeadingSlash req.url ≠ ""
        ∧ ignores (stripOneLeadingSlash req.url)
    · have hred : (serveProjectAsNowV2 mimeLookup ignores exec cwd assets
          hasBuilds req nowRequestId route).response
          = send404 [] nowRequestId := by
        simp [serveProjectAsNowV2, hurl, hnr, hb, serveProjectAsStatic, hig]
      rw [hred]
      exact hasNowHeaders_sendError [] nowRequestId _ _ 404
    · have hred : (serveProjectAsNowV2 mimeLookup ignores exec cwd assets
          hasBuilds req nowRequestId route).response
          = ⟨200, writeResponseHeaders [] nowRequestId [], Body.empty⟩ := by
        simp [serveProjectAsNowV2, hurl, hnr, hb, serveProjectAsStatic, hig]
      rw [hred]
      exact hasNowHeaders_write 200 [] [] nowRequestId Body.empty
  · intro hurl hnr hb
    subst hb
    rcases hT : resolveForServing exec cwd req assets route.dest with
      ⟨o, acts2, assets2⟩
    refine ⟨?_, ?_, ?_, ?_, ?_, ?_⟩
    · intro hres
      have ho : o = none := hres
      subst ho
      have hred : (serveProjectAsNowV2 mimeLookup ignores exec cwd assets
          true req nowRequestId route).response = send404 [] nowRequestId := by
        simp [serveProjectAsNowV2, hurl, hnr, hT]
      show hasNowHeaders (serveProjectAsNowV2 mimeLookup ignores exec cwd
        assets true req nowRequestId route).response nowRequestId
      rw [hred]
      exact hasNowHeaders_sendError [] nowRequestId _ _ 404
    · intro k p be hres
      have ho : o = some (k, BuilderOutput.fileFsRef p be) := hres
      subst ho
      have hred : (serveProjectAsNowV2 mimeLookup ignores exec cwd assets
          true req nowRequestId route).response
          = ⟨200, writeResponseHeaders [] nowRequestId [], Body.empty⟩ := by
        simp [serveProjectAsNowV2, hurl, hnr, hT, serveAsset]
      show hasNowHeaders (serveProjectAsNowV2 mimeLookup ignores exec cwd
        assets true req nowRequestId route).response nowRequestId
      rw [hred]
      exact hasNowHeaders_write 200 [] [] nowRequestId Body.empty
    · intro k d be hres
      have ho : o = some (k, BuilderOutput.fileBlob d be) := hres
      subst ho
      have hred : (serveProjectAsNowV2 mimeLookup ignores exec cwd assets
          true req nowRequestId route).response
          = ⟨200, writeResponseHeaders [] nowRequestId
              (match mimeLookup k with
               | some ct => [("Content-Length", toString d.length),
                   ("Content-Type", ct)]
               | none => [("Content-Length", toString d.length)]),
             Body.text d⟩ := by
        simp [serveProjectAsNowV2, hurl, hnr, hT, serveAsset]
      show hasNowHeaders (serveProjectAsNowV2 mimeLookup ignores exec cwd
        assets true req nowRequestId route).response nowRequestId
      rw [hred]
      exact hasNowHeaders_write 200 [] _ nowRequestId (Body.text d)
    · intro k r be hres
      have ho : o = some (k, BuilderOutput.lambda (some r) be) := hres
      subst ho
      show hasNowHeaders (serveProjectAsNowV2 mimeLookup ignores exec cwd
        assets true req nowRequestId route).response nowRequestId
      cases r with
      | error msg =>
        have hred : (serveProjectAsNowV2 mimeLookup ignores exec cwd assets
            true req nowRequestId route).response
            = sendError [] nowRequestId "NO_STATUS_CODE_FROM_LAMBDA"
                "An error occurred with your deployment" 502 := by
          simp [serveProjectAsNowV2, hurl, hnr, hT, serveAsset]
        rw [hred]
        exact hasNowHeaders_sendError [] nowRequestId _ _ 502
      | ok result =>
        have hred : (serveProjectAsNowV2 mimeLookup ignores exec cwd assets
            true req nowRequestId route).response
            = ⟨result.statusCode,
               writeResponseHeaders [] nowRequestId result.headers,
               match result.body with
               | some (InvokeBody.str s) =>
                 if result.encoding = some "base64" then
                   Body.bytes (b64Decode s)
                 else Body.text s
               | some (InvokeBody.buf bs) => Body.bytes bs
               | none => Body.empty⟩ := by
          simp [serveProjectAsNowV2, hurl, hnr, hT, serveAsset]
        rw [hred]
        exact hasNowHeaders_write _ [] _ nowRequestId _
    · intro k be hres
      have ho : o = some (k, BuilderOutput.lambda none be) := hres
      subst ho
      show (serveProjectAsNowV2 mimeLookup ignores exec cwd assets true req
        nowRequestId route).response.headers = []
      simp [serveProjectAsNowV2, hurl, hnr, hT, serveAsset]
    · intro k t hres
      have ho : o = some (k, BuilderOutput.other t) := hres
      subst ho
      have hred : (serveProjectAsNowV2 mimeLookup ignores exec cwd assets
          true req nowRequestId route).response
          = sendError [] nowRequestId "UNKNOWN_ASSET_TYPE"
              ("Don't know how to handle asset type: " ++ t) 500 := by
        simp [serveProjectAsNowV2, hurl, hnr, hT, serveAsset]
      show hasNowHeaders (serveProjectAsNowV2 mimeLookup ignores exec cwd
        assets true req nowRequestId route).response nowRequestId
      rw [hred]
      exact hasNowHeaders_sendError [] nowRequestId _ _ 500

/-- Claim C1 witness: the blob branch and the 404 branch carry the three
headers at concrete inputs, and the proxy branch takes the proxy action. -/
theorem nowHeaders_by_branch_witness :
    hasNowHeaders (serveProjectAsNowV2 (fun _ => none) (fun _ => false)
        (fun a => a) "cwd" [("a.html", BuilderOutput.fileBlob "hi" none)] true
        ⟨"GET", "/a.html", []⟩ "rid" ⟨"/a.html", 200, []⟩).response "rid"
    ∧ hasNowHeaders (serveProjectAsNowV2 (fun _ => none) (fun _ => false)
        (fun a => a) "cwd" [] true
        ⟨"GET", "/nope", []⟩ "rid" ⟨"/nope", 200, []⟩).response "rid"
    ∧ (serveProjectAsNowV2 (fun _ => none) (fun _ => false)
        (fun a => a) "cwd" [] true ⟨"GET", "/x", []⟩ "rid"
        ⟨"https://example.com/x", 200, []⟩).actions
      = [Action.proxyPass "https://example.com/x"] := by
  refine ⟨?_, ?_, ?_⟩
  · exact ((nowHeaders_by_branch (fun _ => none) (fun _ => false) (fun a => a)
      "cwd" [("a.html", BuilderOutput.fileBlob "hi" none)] true
      ⟨"GET", "/a.html", []⟩ "rid" ⟨"/a.html", 200, []⟩).2.2.2 (by decide)
      (by decide) rfl).2.2.1 "a.html" "hi" none (by decide)
  · exact ((nowHeaders_by_branch (fun _ => none) (fun _ => false) (fun a => a)
      "cwd" [] true ⟨"GET", "/nope", []⟩ "rid"
      ⟨"/nope", 200, []⟩).2.2.2 (by decide) (by decide) rfl).1
      (by decide)
  · exact ((nowHeaders_by_branch (fun _ => none) (fun _ => false) (fun a => a)
      "cwd" [] true ⟨"GET", "/x", []⟩ "rid"
      ⟨"https://example.com/x", 200, []⟩).2.1 (by decide)).1

end DevServer
